import Mathlib

/-!
Shallow embedding of the `timerterm` command-line countdown timer.

Strings from the Rust source are modelled as `List Char`; Rust `u32`
values are modelled as `Nat` with reduction modulo `2^32` where the
source performs arithmetic that can overflow.  Fallible operations
return `Option`.

Embedded source files:
* `src/cli.rs`   — `parse_time_fmt`, `parse_args`;
* `src/main.rs`  — the default fallback `unwrap_or(600)` and the
  polling loop;
* `src/signal.rs` — the interrupt flag, `sigint_handler`, `should_exit`.
-/

namespace Timerterm

/-- The number of values of a Rust `u32`, that is 2^32. -/
def u32Mod : Nat := 4294967296

/-- Decimal value of a list of digit characters, accumulated left to
right exactly as Rust's `from_str_radix` does (48 is the code of `0`). -/
def digitsVal (ds : List Char) : Nat :=
  ds.foldl (fun a c => a * 10 + (c.toNat - 48)) 0

/-- Sign handling of Rust `u32::from_str`: one leading `+` is stripped;
a leading `-` is not (for an unsigned type it is left to fail as a
non-digit). -/
def stripPlus (cs : List Char) : List Char :=
  match cs with
  | c :: rest => if c = '+' then rest else c :: rest
  | [] => []

/-- Model of Rust `time_str.parse::<u32>()` (core `u32::from_str`): after the
optional leading `+`, the remainder must be a nonempty string of ASCII
digits whose value fits in a `u32`; `from_str`'s per-digit checked
multiply/add fails exactly when the final decimal value exceeds
`u32::MAX`, so the overflow test is on the final value. -/
def parseU32 (cs : List Char) : Option Nat :=
  let ds := stripPlus cs
  if ds = [] then none
  else if ds.all Char.isDigit then
    if digitsVal ds < u32Mod then some (digitsVal ds) else none
  else none

/-- Model of `parse_time_fmt` in `src/cli.rs`: no colon means a plain seconds count;
one colon means `mm:ss`; two colons mean `hh:mm:ss`; any other colon
count is invalid.  The `.parse::<u32>().ok()?` chains are modelled by
`Option.bind`.  `mins * 60 + secs` and `hrs * 3600 + mins * 60 + secs`
are `u32` arithmetic, modelled by one reduction modulo `2^32` (reducing
once at the end agrees with reducing after every operation, by
`Nat.add_mod` and `Nat.mul_mod`). -/
def parse_time_fmt (time_str : List Char) : Option Nat :=
  if ':' ∈ time_str then
    match time_str.splitOn ':' with
    | [mStr, sStr] =>
        (parseU32 mStr).bind fun mins =>
          (parseU32 sStr).bind fun secs =>
            some ((mins * 60 + secs) % u32Mod)
    | [hStr, mStr, sStr] =>
        (parseU32 hStr).bind fun hrs =>
          (parseU32 mStr).bind fun mins =>
            (parseU32 sStr).bind fun secs =>
              some ((hrs * 3600 + mins * 60 + secs) % u32Mod)
    | _ => none
  else parseU32 time_str

/-- Model of `parse_args` in `src/cli.rs`: one argument (the program name alone)
gives the 600-second default, two arguments parse the second as a time
specification, any other count is invalid. -/
def parse_args (args : List String) : Option Nat :=
  match args with
  | [_] => some 600
  | [_, a] => parse_time_fmt a.data
  | _ => none

/-- Model of `src/main.rs` line 13, `cli::parse_args(args).unwrap_or(600)`: the
duration the main loop actually observes; a `None` from `parse_args`
collapses into the 600-second default. -/
def parse_duration (args : List String) : Nat :=
  (parse_args args).getD 600

/-! ### Helper lemmas about the parser -/

lemma parseU32_nil : parseU32 [] = none := rfl

/-- Any value produced by `parseU32` fits in a `u32`. -/
lemma parseU32_lt (cs : List Char) (v : Nat) (h : parseU32 cs = some v) :
    v < u32Mod := by
  simp only [parseU32] at h
  split at h
  · exact absurd h (by simp)
  · split at h
    · split at h
      · cases h; assumption
      · exact absurd h (by simp)
    · exact absurd h (by simp)

/-- A field starting with `-` never parses (Rust `u32::from_str` strips
only a leading `+`; `-` fails as a non-digit). -/
lemma parseU32_neg_head (rest : List Char) : parseU32 ('-' :: rest) = none := by
  simp [parseU32, stripPlus]

/-- Splitting a string that holds no colon yields the whole string as
the single field. -/
lemma splitOn_colon_single (cs : List Char) (h : ':' ∉ cs) :
    cs.splitOn ':' = [cs] := by
  simp only [List.splitOn]
  refine List.splitOnP_eq_single _ _ ?_
  intro x hx hbeq
  exact h (beq_iff_eq.mp hbeq ▸ hx)

/-- The number of fields produced by splitting is one more than the
number of colons. -/
lemma length_splitOn_colon (cs : List Char) :
    (cs.splitOn ':').length = cs.count ':' + 1 := by
  simp only [List.splitOn]
  induction cs with
  | nil => rfl
  | cons c t ih =>
    rw [List.splitOnP_cons]
    by_cases h : c = ':'
    · subst h
      simp [List.count_cons, ih]
    · have hne : (c == ':') = false := by simp [h]
      rw [if_neg (by simp [hne])]
      rcases hsp : t.splitOnP (· == ':') with _ | ⟨hd, tl⟩
      · exact absurd hsp (List.splitOnP_ne_nil _ t)
      · rw [hsp] at ih
        simp [List.count_cons, h, ← ih]

/-- If any parse fails in a field, the bind chain for two fields gives
`none`; evaluation lemma for the `mm:ss` arm. -/
lemma parse_time_fmt_two (cs a b : List Char) (hm : ':' ∈ cs)
    (hsp : cs.splitOn ':' = [a, b]) (va vb : Nat)
    (ha : parseU32 a = some va) (hb : parseU32 b = some vb) :
    parse_time_fmt cs = some ((va * 60 + vb) % u32Mod) := by
  simp [parse_time_fmt, hm, hsp, ha, hb]

/-- Evaluation lemma for the `hh:mm:ss` arm. -/
lemma parse_time_fmt_three (cs a b c : List Char) (hm : ':' ∈ cs)
    (hsp : cs.splitOn ':' = [a, b, c]) (va vb vc : Nat)
    (ha : parseU32 a = some va) (hb : parseU32 b = some vb)
    (hc : parseU32 c = some vc) :
    parse_time_fmt cs = some ((va * 3600 + vb * 60 + vc) % u32Mod) := by
  simp [parse_time_fmt, hm, hsp, ha, hb, hc]

/-- If any colon-separated field fails to parse as a `u32`, the whole
time specification fails. -/
lemma parse_time_fmt_none_of_bad_field (cs f : List Char)
    (hf : f ∈ cs.splitOn ':') (hnone : parseU32 f = none) :
    parse_time_fmt cs = none := by
  by_cases hm : ':' ∈ cs
  · rcases hsp : cs.splitOn ':' with _ | ⟨a, _ | ⟨b, _ | ⟨c, rest⟩⟩⟩
    · exact absurd hsp (by simp [List.splitOn]; exact List.splitOnP_ne_nil _ cs)
    · simp [parse_time_fmt, hm, hsp]
    · rw [hsp] at hf
      rcases List.mem_pair.mp hf with rfl | rfl
      · simp [parse_time_fmt, hm, hsp, hnone]
      · cases hpa : parseU32 a <;> simp [parse_time_fmt, hm, hsp, hpa, hnone]
    · rcases rest with _ | ⟨d, rest⟩
      · rw [hsp] at hf
        simp only [List.mem_cons, List.mem_singleton] at hf
        rcases hf with rfl | rfl | rfl | hf
        · simp [parse_time_fmt, hm, hsp, hnone]
        · cases hpa : parseU32 a <;>
            simp [parse_time_fmt, hm, hsp, hpa, hnone]
        · cases hpa : parseU32 a <;> cases hpb : parseU32 b <;>
            simp [parse_time_fmt, hm, hsp, hpa, hpb, hnone]
        · cases hf
      · simp [parse_time_fmt, hm, hsp]
  · have hsp := splitOn_colon_single cs hm
    rw [hsp, List.mem_singleton] at hf
    subst hf
    simp [parse_time_fmt, hm, hnone]

/-- Any value produced by `parse_time_fmt` fits in a `u32`. -/
lemma parse_time_fmt_lt (cs : List Char) (v : Nat)
    (h : parse_time_fmt cs = some v) : v < u32Mod := by
  unfold parse_time_fmt at h
  split at h
  · split at h
    · rcases Option.bind_eq_some.mp h with ⟨mins, hm, h2⟩
      rcases Option.bind_eq_some.mp h2 with ⟨secs, hs, h3⟩
      cases h3
      exact Nat.mod_lt _ (by norm_num [u32Mod])
    · rcases Option.bind_eq_some.mp h with ⟨hrs, hh, h2⟩
      rcases Option.bind_eq_some.mp h2 with ⟨mins, hm, h3⟩
      rcases Option.bind_eq_some.mp h3 with ⟨secs, hs, h4⟩
      cases h4
      exact Nat.mod_lt _ (by norm_num [u32Mod])
    · exact absurd h (by simp)
  · exact parseU32_lt _ _ h

/-! ### Interrupt flag (`src/signal.rs`)

The module's only state is the atomic boolean `SHOULD_EXIT`, so the
state space is `Bool` and each operation is a function on it. -/

/-- Initial value of the `SHOULD_EXIT` atomic (`AtomicBool::new(false)`). -/
def SHOULD_EXIT_init : Bool := false

/-- Model of `sigint_handler`: ignores its signal-number argument and stores
`true` into the flag.  Modelled as a state transformer on the flag. -/
def sigint_handler (_sig : Int) (_flag : Bool) : Bool := true

/-- Model of `should_exit` (the spec's `is_requested`): loads the flag; it does
not modify the state. -/
def should_exit (flag : Bool) : Bool := flag

/-- The operations the signal module exposes on its state: delivery of
a signal (which runs `sigint_handler`) and a load by `should_exit`. -/
inductive SignalOp where
  | deliver (sig : Int)
  | load

/-- State after one operation of the signal module. -/
def signalStep (flag : Bool) : SignalOp → Bool
  | SignalOp.deliver s => sigint_handler s flag
  | SignalOp.load => flag

/-- State after a sequence of operations of the signal module. -/
def signalRun (flag : Bool) (ops : List SignalOp) : Bool :=
  ops.foldl signalStep flag

lemma signalStep_true (op : SignalOp) : signalStep true op = true := by
  cases op <;> rfl

lemma signalRun_true (ops : List SignalOp) : signalRun true ops = true := by
  induction ops with
  | nil => rfl
  | cons op t ih =>
    simp only [signalRun, List.foldl_cons, signalStep_true]
    exact ih

/-! ### Main loop (`src/main.rs`)

The loop checks `should_exit() || start.elapsed().as_secs() >= duration`
at the top of each iteration and sleeps 100 ms between consecutive
checks.  Checks are indexed `0, 1, 2, …`; the environment records the
flag value and the elapsed seconds the program observes at each check.
Breaking out of the loop falls through to the end of `main`, which is
the process exiting with code 0; `mainLoop` returns `some (k, 0)` for
"broke out at check `k`, exit code 0" and `none` for fuel exhaustion
(the real loop is unbounded, so every run that stops is a `some`). -/

structure MainEnv where
  flagAt : Nat → Bool
  elapsedAt : Nat → Nat

/-- The exit condition of the loop at check `k`. -/
def exitCond (env : MainEnv) (duration : Nat) (k : Nat) : Bool :=
  should_exit (env.flagAt k) || decide (env.elapsedAt k ≥ duration)

/-- The polling loop, with explicit fuel. -/
def mainLoop (env : MainEnv) (duration : Nat) : Nat → Nat → Option (Nat × Nat)
  | 0, _ => none
  | fuel + 1, k =>
    if exitCond env duration k then some (k, 0)
    else mainLoop env duration fuel (k + 1)

/-- Soundness: a stopped run stopped at the first satisfied check, with
exit code 0. -/
lemma mainLoop_sound (env : MainEnv) (d : Nat) :
    ∀ fuel i k c, mainLoop env d fuel i = some (k, c) →
      c = 0 ∧ i ≤ k ∧ exitCond env d k = true ∧
        ∀ j, i ≤ j → j < k → exitCond env d j = false := by
  intro fuel
  induction fuel with
  | zero => intro i k c h; exact absurd h (by simp [mainLoop])
  | succ m ih =>
    intro i k c h
    rw [mainLoop] at h
    by_cases hc : exitCond env d i
    · rw [if_pos hc] at h
      obtain ⟨rfl, rfl⟩ : i = k ∧ 0 = c := by
        have := Option.some.inj h
        exact ⟨congrArg Prod.fst this, congrArg Prod.snd this⟩
      exact ⟨rfl, le_refl i, hc, fun j h1 h2 => absurd h2 (by omega)⟩
    · rw [if_neg hc] at h
      obtain ⟨hc0, hik, hck, hall⟩ := ih (i + 1) k c h
      refine ⟨hc0, by omega, hck, fun j h1 h2 => ?_⟩
      rcases Nat.eq_or_lt_of_le h1 with rfl | hlt
      · exact Bool.eq_false_iff.mpr hc
      · exact hall j hlt h2

/-- Completeness: if some check satisfies the exit condition first,
enough fuel makes the loop stop there with exit code 0. -/
lemma mainLoop_complete (env : MainEnv) (d : Nat) :
    ∀ fuel i k, i ≤ k → k < i + fuel → exitCond env d k = true →
      (∀ j, i ≤ j → j < k → exitCond env d j = false) →
      mainLoop env d fuel i = some (k, 0) := by
  intro fuel
  induction fuel with
  | zero => intro i k h1 h2 _ _; omega
  | succ m ih =>
    intro i k h1 h2 hk hall
    rw [mainLoop]
    rcases Nat.eq_or_lt_of_le h1 with rfl | hlt
    · rw [if_pos hk]
    · rw [if_neg (by simp [hall i (le_refl i) hlt])]
      exact ih (i + 1) k hlt (by omega) hk fun j hj1 hj2 => hall j (by omega) hj2

/-- Any value produced by `parse_args` fits in a `u32`. -/
lemma parse_args_lt (args : List String) (v : Nat)
    (h : parse_args args = some v) : v < u32Mod := by
  rcases args with _ | ⟨x, _ | ⟨y, _ | ⟨z, t⟩⟩⟩
  · exact absurd h (by simp [parse_args])
  · cases Option.some.inj h
    norm_num [u32Mod]
  · exact parse_time_fmt_lt _ _ h
  · exact absurd h (by simp [parse_args])

/-! ### Claims -/

/-- Claim C1 counterexample: `"71582789:0"` contains exactly one colon and
both fields are numeric (71582789 and 0), yet the result is 44, not
`71582789 * 60 + 0 = 4294967340`: the `u32` product wraps around, so
the claimed equation fails on this input. -/
theorem c1_counterexample :
    "71582789:0".data.count ':' = 1
    ∧ parseU32 "71582789".data = some 71582789
    ∧ parseU32 "0".data = some 0
    ∧ parse_time_fmt "71582789:0".data = some 44
    ∧ (44 : Nat) ≠ 71582789 * 60 + 0 := by
  refine ⟨by decide, by decide, by decide, by decide, by decide⟩

/-- Claim C1 (amended): with no colon the string parses directly as an
unsigned seconds count; with exactly one colon the result is
`(mm*60 + ss) % 2^32`; with exactly two colons it is
`(hh*3600 + mm*60 + ss) % 2^32` (the sums agree with the claimed
`mm*60 + ss` and `hh*3600 + mm*60 + ss` whenever they are below
`2^32`, and wrap modulo `2^32` otherwise); any other colon count
fails.  `"1:30:45"` parses to 5445, `"0:00:30"` to 30 and
`"2:15:00"` to 8100. -/
theorem c1_time_fmt_grammar (s : String) :
    (s.data.count ':' = 0 → parse_time_fmt s.data = parseU32 s.data)
    ∧ (∀ a b : List Char, ∀ va vb : Nat, s.data.count ':' = 1 →
        s.data.splitOn ':' = [a, b] →
        parseU32 a = some va → parseU32 b = some vb →
        parse_time_fmt s.data = some ((va * 60 + vb) % u32Mod))
    ∧ (∀ a b c : List Char, ∀ va vb vc : Nat, s.data.count ':' = 2 →
        s.data.splitOn ':' = [a, b, c] →
        parseU32 a = some va → parseU32 b = some vb → parseU32 c = some vc →
        parse_time_fmt s.data = some ((va * 3600 + vb * 60 + vc) % u32Mod))
    ∧ (2 < s.data.count ':' → parse_time_fmt s.data = none)
    ∧ parse_time_fmt "1:30:45".data = some 5445
    ∧ parse_time_fmt "0:00:30".data = some 30
    ∧ parse_time_fmt "2:15:00".data = some 8100 := by
  refine ⟨?_, ?_, ?_, ?_, by decide, by decide, by decide⟩
  · intro h
    have hm : ':' ∉ s.data := List.count_eq_zero.mp h
    simp [parse_time_fmt, hm]
  · intro a b va vb hcount hsp ha hb
    have hm : ':' ∈ s.data := List.count_pos_iff.mp (by omega)
    exact parse_time_fmt_two s.data a b hm hsp va vb ha hb
  · intro a b c va vb vc hcount hsp ha hb hc
    have hm : ':' ∈ s.data := List.count_pos_iff.mp (by omega)
    exact parse_time_fmt_three s.data a b c hm hsp va vb vc ha hb hc
  · intro h
    have hm : ':' ∈ s.data := List.count_pos_iff.mp (by omega)
    have hlen := length_splitOn_colon s.data
    rcases hsp : s.data.splitOn ':' with _ | ⟨a, _ | ⟨b, _ | ⟨c, _ | ⟨d, t⟩⟩⟩⟩ <;>
      rw [hsp] at hlen
    · simp at hlen
    · simp at hlen; omega
    · simp at hlen; omega
    · simp at hlen; omega
    · simp [parse_time_fmt, hm, hsp]

/-- Claim C1 witness: the one-colon clause applied to `"4:05"` (also shows a
leading zero is accepted). -/
theorem c1_witness : parse_time_fmt "4:05".data = some ((4 * 60 + 5) % u32Mod) :=
  (c1_time_fmt_grammar "4:05").2.1 "4".data "05".data 4 5
    (by decide) (by decide) (by decide) (by decide)

/-- Claim C2: wrong arity and failed parses both collapse into the default
600 seconds observed by the caller (`unwrap_or(600)` in `main`). -/
theorem c2_default_fallback :
    (∀ args : List String, args.length ≠ 1 → args.length ≠ 2 →
      parse_duration args = 600)
    ∧ (∀ p a : String, parse_time_fmt a.data = none →
      parse_duration [p, a] = 600)
    ∧ (∀ p : String, parse_duration [p, "abc"] = 600)
    ∧ (∀ p : String, parse_duration [p, "a", "b"] = 600) := by
  refine ⟨?_, ?_, fun p => rfl, fun p => rfl⟩
  · intro args h1 h2
    rcases args with _ | ⟨x, _ | ⟨y, _ | ⟨z, t⟩⟩⟩
    · rfl
    · exact absurd rfl h1
    · exact absurd rfl h2
    · rfl
  · intro p a h
    simp [parse_duration, parse_args, h]

/-- Claim C2 witness: three extra arguments, and a lone malformed argument,
both yield 600. -/
theorem c2_witness :
    parse_duration ["timeterm", "x", "y", "z"] = 600
    ∧ parse_duration ["timeterm", "1:2:3:4"] = 600 :=
  ⟨c2_default_fallback.1 ["timeterm", "x", "y", "z"] (by decide) (by decide),
   c2_default_fallback.2.1 "timeterm" "1:2:3:4" (by decide)⟩

/-- Claim C3: the caller always observes a defined duration — an integer
number of seconds in the `u32` range — for every argument list. -/
theorem c3_duration_always_defined (args : List String) :
    ∃ n : Nat, parse_duration args = n ∧ n < u32Mod := by
  refine ⟨parse_duration args, rfl, ?_⟩
  rcases h : parse_args args with _ | v
  · simp [parse_duration, h]
    norm_num [u32Mod]
  · have hv := parse_args_lt args v h
    simpa [parse_duration, h] using hv

/-- Claim C4 counterexample: in `"100000000:0"` both fields are numeric and
the sum `100000000 * 60` exceeds `u32::MAX`, yet parsing does not fail:
it returns the wrapped value 1705032704 (and the caller observes it,
not the 600-second default). -/
theorem c4_counterexample :
    parse_time_fmt "100000000:0".data = some 1705032704
    ∧ u32Mod ≤ 100000000 * 60 + 0
    ∧ parse_duration ["timeterm", "100000000:0"] = 1705032704 := by
  refine ⟨by decide, by decide, by decide⟩

/-- Claim C4 (amended): each individual field is bounded — a field whose
decimal value exceeds `u32::MAX` fails to parse (hence the default);
but when every field parses, an overflowing sum does not fail: it
wraps modulo `2^32` (release-profile `u32` arithmetic; a debug build
would panic, and neither build yields the default). -/
theorem c4_overflow_behavior :
    (∀ cs : List Char, ∀ v : Nat, parseU32 cs = some v → v < u32Mod)
    ∧ parseU32 "4294967296".data = none
    ∧ parseU32 "4294967295".data = some 4294967295
    ∧ (∀ s : String, ∀ a b : List Char, ∀ va vb : Nat,
        s.data.splitOn ':' = [a, b] → ':' ∈ s.data →
        parseU32 a = some va → parseU32 b = some vb →
        parse_time_fmt s.data = some ((va * 60 + vb) % u32Mod))
    ∧ parse_duration ["timeterm", "100000000:1"] = 1705032705 := by
  refine ⟨parseU32_lt, by decide, by decide, ?_, by decide⟩
  intro s a b va vb hsp hm ha hb
  exact parse_time_fmt_two s.data a b hm hsp va vb ha hb

/-- Claim C4 witness: the field bound and the two-field formula applied at
concrete inputs. -/
theorem c4_witness :
    (3 : Nat) < u32Mod
    ∧ parse_time_fmt "3:20".data = some ((3 * 60 + 20) % u32Mod) :=
  ⟨c4_overflow_behavior.1 "3".data 3 (by decide),
   c4_overflow_behavior.2.2.2.1 "3:20" "3".data "20".data 3 20
     (by decide) (by decide) (by decide) (by decide)⟩

/-- Claim C5 counterexample: `"+5"` carries a leading `+` sign yet parses to
5, and the caller observes 5, not the 600-second default: Rust `u32`
parsing accepts one leading `+`. -/
theorem c5_counterexample :
    parse_time_fmt "+5".data = some 5
    ∧ parse_duration ["timeterm", "+5"] = 5 := by
  refine ⟨by decide, by decide⟩

/-- Claim C5 (amended): a field with a leading `-` always fails, and the
default is used; but a single leading `+` followed by digits is
accepted (stripped by `u32::from_str`).  No decimal point can appear
in an accepted field (every accepted character after the optional `+`
is a digit). -/
theorem c5_sign_handling :
    (∀ s : String, ∀ f ∈ s.data.splitOn ':', f.head? = some '-' →
      parse_time_fmt s.data = none)
    ∧ (∀ p s : String, ∀ f ∈ s.data.splitOn ':', f.head? = some '-' →
      parse_duration [p, s] = 600)
    ∧ (∀ ds : List Char, ds ≠ [] → ds.all Char.isDigit = true →
        digitsVal ds < u32Mod → parseU32 ('+' :: ds) = some (digitsVal ds))
    ∧ (∀ cs : List Char, ∀ v : Nat, parseU32 cs = some v →
        (stripPlus cs).all Char.isDigit = true)
    ∧ parse_time_fmt "-5".data = none
    ∧ parse_time_fmt "1:-30".data = none
    ∧ parse_time_fmt "+5".data = some 5 := by
  have hneg : ∀ s : String, ∀ f ∈ s.data.splitOn ':', f.head? = some '-' →
      parse_time_fmt s.data = none := by
    intro s f hf hh
    rcases f with _ | ⟨c, rest⟩
    · exact absurd hh (by simp)
    · have hc : c = '-' := by simpa using hh
      subst hc
      exact parse_time_fmt_none_of_bad_field s.data _ hf (parseU32_neg_head rest)
  refine ⟨hneg, ?_, ?_, ?_, by decide, by decide, by decide⟩
  · intro p s f hf hh
    simp [parse_duration, parse_args, hneg s f hf hh]
  · intro ds h1 h2 h3
    simp [parseU32, stripPlus, h1, h2, h3]
  · intro cs v h
    simp only [parseU32] at h
    split at h
    · exact absurd h (by simp)
    · split at h
      · assumption
      · exact absurd h (by simp)

/-- Claim C5 witness: a leading `-` field fails and defaults; a `+` field
with digits parses. -/
theorem c5_witness :
    parse_time_fmt "-7".data = none
    ∧ parse_duration ["timeterm", "-7"] = 600
    ∧ parseU32 ('+' :: ['9']) = some (digitsVal ['9']) :=
  ⟨c5_sign_handling.1 "-7" "-7".data (by decide) (by decide),
   c5_sign_handling.2.1 "timeterm" "-7" "-7".data (by decide) (by decide),
   c5_sign_handling.2.2.1 ['9'] (by decide) (by decide) (by decide)⟩

/-- Claim C6: an argument list holding only the program name always yields
the 600-second default, whatever that name is. -/
theorem c6_single_arg_default (p : String) :
    parse_args [p] = some 600 ∧ parse_duration [p] = 600 :=
  ⟨rfl, rfl⟩

/-- Claim C7: the interrupt flag starts false; running the handler makes a
subsequent `should_exit` read true; and once true, no operation of the
module (loads or further deliveries) ever makes it false again. -/
theorem c7_flag_monotone :
    SHOULD_EXIT_init = false
    ∧ (∀ s : Int, ∀ f : Bool, should_exit (sigint_handler s f) = true)
    ∧ (∀ ops : List SignalOp, signalRun true ops = true) :=
  ⟨rfl, fun _ _ => rfl, signalRun_true⟩

/-- Claim C8: a run of the polling loop stops exactly at the first check
where the flag reads true or the elapsed seconds reach the duration,
and every stop carries exit code 0 (both the elapsed and the
interrupted stop go through the same `break` to a successful exit). -/
theorem c8_loop_stop (env : MainEnv) (d fuel k c : Nat) :
    (mainLoop env d fuel 0 = some (k, c) →
      c = 0 ∧ exitCond env d k = true ∧ ∀ j < k, exitCond env d j = false)
    ∧ (exitCond env d k = true → (∀ j < k, exitCond env d j = false) →
      k < fuel → mainLoop env d fuel 0 = some (k, 0)) := by
  constructor
  · intro h
    obtain ⟨h0, _, hk, hall⟩ := mainLoop_sound env d fuel 0 k c h
    exact ⟨h0, hk, fun j hj => hall j (Nat.zero_le j) hj⟩
  · intro hk hall hfuel
    exact mainLoop_complete env d fuel 0 k (Nat.zero_le k) (by omega) hk
      (fun j _ hj => hall j hj)

/-- Claim C8 witness: with the flag first reading true at check 3 and the
elapsed time never reaching the 5-second duration, the loop stops at
check 3 with exit code 0. -/
theorem c8_witness :
    mainLoop ⟨fun k => decide (3 ≤ k), fun _ => 0⟩ 5 10 0 = some (3, 0) :=
  (c8_loop_stop ⟨fun k => decide (3 ≤ k), fun _ => 0⟩ 5 10 3 0).2
    (by decide) (by decide) (by decide)

/-- Claim C9: for every starting flag state and every `n ≥ 1`, iterating the
handler `n` times leaves the flag exactly as one invocation does —
true; the module state is only the flag, so that write is its sole
effect. -/
theorem c9_handler_idempotent (s : Int) (f : Bool) (n : Nat) (h : 1 ≤ n) :
    (sigint_handler s)^[n] f = sigint_handler s f
    ∧ sigint_handler s f = true := by
  rcases n with _ | m
  · omega
  · rw [Function.iterate_succ_apply']
    exact ⟨rfl, rfl⟩

/-- Claim C9 witness: three deliveries of SIGINT (signal number 2) equal
one. -/
theorem c9_witness :
    (sigint_handler 2)^[3] false = sigint_handler 2 false
    ∧ sigint_handler 2 false = true :=
  c9_handler_idempotent 2 false 3 (by norm_num)

/-- Claim C10: a time specification with an empty colon-separated field
(such as `":30"`, `"1:"`, `"::"` or `""`) always fails to parse, and
the caller falls back to the 600-second default. -/
theorem c10_empty_field_fails (s : String) (h : [] ∈ s.data.splitOn ':') :
    parse_time_fmt s.data = none ∧ ∀ p : String, parse_duration [p, s] = 600 := by
  have hn := parse_time_fmt_none_of_bad_field s.data [] h parseU32_nil
  exact ⟨hn, fun p => by simp [parse_duration, parse_args, hn]⟩

/-- Claim C10 witness: `":30"` fails and defaults to 600. -/
theorem c10_witness :
    parse_time_fmt ":30".data = none
    ∧ parse_duration ["timeterm", ":30"] = 600 :=
  ⟨(c10_empty_field_fails ":30" (by decide)).1,
   (c10_empty_field_fails ":30" (by decide)).2 "timeterm"⟩

end Timerterm
